import Mathlib

/-!
Verification of the keyword-extraction notebook: a shallow embedding of the
n-gram windowing, co-occurrence graph construction and reporting steps,
together with theorems settling the specification claims.

Tokens are modelled as records carrying the attributes the notebook reads
(surface text, part-of-speech tag, stop-word flag, punctuation flag) plus the
position index; equality of two tokens from one document is positional, as in
the tagging library, so it coincides with structural equality here.
-/

namespace TextRank

structure Token where
  idx : Nat
  text : String
  pos : String
  is_stop : Bool
  is_punct : Bool
deriving DecidableEq, Repr

/-- Default token used to model total indexing into spans (never reached on
the well-formed spans the notebook produces). -/
def dT : Token := ⟨0, "", "", false, false⟩

/-- Python slice xs[a:b] for non-negative bounds. -/
def pySlice (xs : List α) (a b : Nat) : List α := (xs.take b).drop a

/-- Python slice xs[:-2]. -/
def pyDropLast2 (xs : List α) : List α := xs.take (xs.length - 2)

/-- The end-index expression max(0, L - (L - (i+W+1))) shared by the three
co-occurrence builders, over unbounded integers as in Python. -/
def endIdx (L i W : Nat) : Int :=
  max 0 ((L : Int) - ((L : Int) - ((i : Int) + (W : Int) + 1)))

/-- Unigram retained tokens: not a stop word and tagged NOUN. -/
def gatsby_filt (doc : List Token) : List Token :=
  doc.filter (fun w => w.is_stop == false && w.pos == "NOUN")

/-- The node universe of the unigram graph: set(gatsby_filt). -/
def words (doc : List Token) : List Token := (gatsby_filt doc).dedup

/-- The neighbor window slice gatsby[i+1:end] of the unigram builder. -/
def nextwords (doc : List Token) (i W : Nat) : List Token :=
  pySlice doc (i + 1) (endIdx doc.length i W).toNat

/-- Window tokens kept as neighbors: those appearing in the retained list. -/
def neighborsOf (doc : List Token) (i W : Nat) : List Token :=
  (nextwords doc i W).filter (fun x => decide (x ∈ gatsby_filt doc))

/-- One loop iteration of a co-occurrence builder adds a per-cell
contribution to the accumulated weight matrix. -/
def accAdd (contrib : Nat × σ → γ → Int) (m : γ → Int) (p : Nat × σ) : γ → Int :=
  fun c => m c + contrib p c

/-- Contribution of scan position i of the unigram builder to cell (a, b):
if the token at i is retained and equals a, the number of occurrences of b
among the retained tokens of the window after i. -/
def uniContrib (doc : List Token) (W : Nat) (p : Nat × Token) (c : Token × Token) : Int :=
  if p.2 ∈ gatsby_filt doc ∧ c.1 = p.2 then ((neighborsOf doc p.1 W).count c.2 : Int) else 0

/-- The unigram co-occurrence weights, built by scanning the full token
sequence and accumulating window counts, starting from the zero matrix. -/
def adjacency (doc : List Token) (W : Nat) : Token × Token → Int :=
  (doc.enum).foldl (accAdd (uniContrib doc W)) (fun _ => 0)

/-- All windows gatsby[i:i+2] for i in range(len(gatsby)). -/
def new_gats (doc : List Token) : List (List Token) :=
  (List.range doc.length).map (fun i => pySlice doc i (i + 2))

/-- The digram windowing output new_gats[:-2]. -/
def digramWindowed (doc : List Token) : List (List Token) :=
  pyDropLast2 (new_gats doc)

/-- Digrams with no punctuation constituent. -/
def second_gats (doc : List Token) : List (List Token) :=
  (digramWindowed doc).filter
    (fun d => (d.getD 0 dT).is_punct == false && (d.getD 1 dT).is_punct == false)

/-- Digrams additionally containing no stop word. -/
def shorter_gats (doc : List Token) : List (List Token) :=
  (second_gats doc).filter
    (fun d => (d.getD 0 dT).is_stop == false && (d.getD 1 dT).is_stop == false)

/-- Retained digrams: adjective followed by noun. -/
def new_gats_filt (doc : List Token) : List (List Token) :=
  (shorter_gats doc).filter
    (fun d => (d.getD 0 dT).pos == "ADJ" && (d.getD 1 dT).pos == "NOUN")

/-- The node universe of the digram graph: set(new_gats_filt). -/
def new_gats_words (doc : List Token) : List (List Token) := (new_gats_filt doc).dedup

/-- The text of a span, used as matrix key by the digram and trigram builders. -/
def spanStr (s : List Token) : String := String.intercalate " " (s.map Token.text)

/-- Contribution of scan position i of the digram builder to cell (s, t). The
scanned sequence is shorter_gats and both keys are span texts. -/
def digrContrib (doc : List Token) (p : Nat × List Token) (c : String × String) : Int :=
  if p.2 ∈ new_gats_filt doc ∧ spanStr p.2 = c.1 then
    (((((pySlice (shorter_gats doc) (p.1 + 1)
        (endIdx (shorter_gats doc).length p.1 14).toNat).filter
        (fun x => decide (x ∈ new_gats_filt doc))).map spanStr).count c.2 : Nat) : Int)
  else 0

/-- The digram co-occurrence weights, scanning shorter_gats with window 14. -/
def adjacency_digr (doc : List Token) : String × String → Int :=
  ((shorter_gats doc).enum).foldl (accAdd (digrContrib doc)) (fun _ => 0)

/-- All windows gatsby[i:i+3] for i in range(len(gatsby)). -/
def trig_gats_raw (doc : List Token) : List (List Token) :=
  (List.range doc.length).map (fun i => pySlice doc i (i + 3))

/-- The trigram windowing output trig_gats[:-2] before filtering. -/
def trigramWindowed (doc : List Token) : List (List Token) :=
  pyDropLast2 (trig_gats_raw doc)

/-- Trigrams with no punctuation constituent. -/
def trig_gats (doc : List Token) : List (List Token) :=
  (trigramWindowed doc).filter
    (fun t => (t.getD 0 dT).is_punct == false && (t.getD 1 dT).is_punct == false &&
      (t.getD 2 dT).is_punct == false)

/-- Retained trigrams: last token not a stop word and some constituent a noun. -/
def trig_gats_filt (doc : List Token) : List (List Token) :=
  (trig_gats doc).filter
    (fun t => (t.getD 2 dT).is_stop == false &&
      ((t.getD 0 dT).pos == "NOUN" || (t.getD 1 dT).pos == "NOUN" ||
        (t.getD 2 dT).pos == "NOUN"))

/-- The node universe of the trigram graph: set(trig_gats_filt). -/
def trig_gats_words (doc : List Token) : List (List Token) := (trig_gats_filt doc).dedup

/-- Contribution of scan position i of the trigram builder to cell (s, t).
The scanned sequence is shorter_gats, exactly as in the source; the neighbor
slices are drawn from trig_gats with window 4. -/
def trigContrib (doc : List Token) (p : Nat × List Token) (c : String × String) : Int :=
  if p.2 ∈ trig_gats_filt doc ∧ spanStr p.2 = c.1 then
    (((((pySlice (trig_gats doc) (p.1 + 1)
        (endIdx (trig_gats doc).length p.1 4).toNat).filter
        (fun x => decide (x ∈ trig_gats_filt doc))).map spanStr).count c.2 : Nat) : Int)
  else 0

/-- The trigram co-occurrence weights, scanning shorter_gats with window 4. -/
def adjacency_trigr (doc : List Token) : String × String → Int :=
  ((shorter_gats doc).enum).foldl (accAdd (trigContrib doc)) (fun _ => 0)

/-- Python tuple comparison (score, token) < (score, token): score first, the
token ordered by its position, as the tagging library orders tokens. -/
def pyTupLt (a b : ℚ × Token) : Bool :=
  decide (a.1 < b.1) || (decide (a.1 = b.1) && decide (a.2.idx < b.2.idx))

/-- The reporter sort: sorted(pairs, reverse=True), a stable sort that puts a
pair before another unless the Python tuple order says it is smaller. -/
def ranked (pairs : List (ℚ × Token)) : List (ℚ × Token) :=
  pairs.mergeSort (fun a b => !(pyTupLt a b))

/-- The reported output ranked[:5]. -/
def rankedTop (pairs : List (ℚ × Token)) : List (ℚ × Token) :=
  (ranked pairs).take 5

/-- The keyword pipeline: build the retained set, the adjacency matrix over
it, score its nodes with the (pinned, external) ranking engine, pair the
scores with the node list and report the top five. -/
def topKeywords (engine : (Token × Token → Int) → Nat → Nat → ℚ)
    (doc : List Token) : List (ℚ × Token) :=
  let ws := words doc
  let scores := engine (adjacency doc 4) ws.length
  rankedTop (ws.enum.map (fun p => (scores p.1, p.2)))

/-- A constant ranking engine, used to instantiate pipeline statements. -/
def zeroEngine : (Token × Token → Int) → Nat → Nat → ℚ := fun _ _ _ => 0

/-- The adjacency structure as emitted: row labels, column labels and the
weight of each labelled cell. -/
structure AdjFrame (κ : Type) where
  rowLabels : List κ
  colLabels : List κ
  entry : κ × κ → Int

/-- The unigram DataFrame: indexed by the retained-token set on both axes. -/
def unigramFrame (doc : List Token) (W : Nat) : AdjFrame Token :=
  ⟨words doc, words doc, adjacency doc W⟩

/-- The digram DataFrame: one row and column per element of the retained
digram set, labelled by the span texts. -/
def digramFrame (doc : List Token) : AdjFrame String :=
  ⟨(new_gats_words doc).map spanStr, (new_gats_words doc).map spanStr, adjacency_digr doc⟩

/-- Rendering of the claim wording for comparison: the full unfiltered digram
span sequence produced by windowing over the entire text, all L-N+1
contiguous spans for N = 2. -/
def specUnfilteredDigramSeq (doc : List Token) : List (List Token) :=
  (List.range (doc.length - 1)).map (fun i => pySlice doc i (i + 2))

/-- Rendering of the claim wording for comparison: the full unfiltered
trigram span sequence, all L-N+1 contiguous spans for N = 3. -/
def specUnfilteredTrigramSeq (doc : List Token) : List (List Token) :=
  (List.range (doc.length - 2)).map (fun i => pySlice doc i (i + 3))

/-- Rendering of the claim wording for comparison: the first five pairs
sorted by score descending with ties broken by the node ascending. -/
def specRanked5 (pairs : List (ℚ × Token)) : List (ℚ × Token) :=
  (pairs.mergeSort (fun a b =>
    decide (b.1 < a.1) || (decide (a.1 = b.1) && decide (a.2.idx ≤ b.2.idx)))).take 5

/-- Rendering of the claim wording for comparison: a pipeline that fails with
a clear no-data error when the retained set is empty, and otherwise returns
the report of the source pipeline. -/
def claimNoDataPipeline (engine : (Token × Token → Int) → Nat → Nat → ℚ)
    (doc : List Token) : Except String (List (ℚ × Token)) :=
  if words doc = [] then Except.error "no data" else Except.ok (topKeywords engine doc)

/-- Helper to write concrete tokens compactly. -/
def tok (i : Nat) (t p : String) (st pu : Bool) : Token := ⟨i, t, p, st, pu⟩

/-- The worked example text of the specification: The cat sat. The dog ran. -/
def catDoc : List Token :=
  [tok 0 "The" "DET" true false, tok 1 "cat" "NOUN" false false,
   tok 2 "sat" "VERB" false false, tok 3 "." "PUNCT" false true,
   tok 4 "The" "DET" true false, tok 5 "dog" "NOUN" false false,
   tok 6 "ran" "VERB" false false, tok 7 "." "PUNCT" false true]

/-- A four-token document with no punctuation or stop words. -/
def plainDoc4 : List Token :=
  [tok 0 "red" "ADJ" false false, tok 1 "fox" "NOUN" false false,
   tok 2 "green" "ADJ" false false, tok 3 "owl" "NOUN" false false]

/-- A document with a punctuation token, separating the filtered digram
sequence from the unfiltered one. -/
def punctDoc : List Token :=
  [tok 0 "big" "ADJ" false false, tok 1 "." "PUNCT" false true,
   tok 2 "dog" "NOUN" false false, tok 3 "ran" "VERB" false false]

/-- A document with the same noun text at two positions. -/
def catCatDoc : List Token :=
  [tok 0 "cat" "NOUN" false false, tok 1 "and" "CCONJ" true false,
   tok 2 "cat" "NOUN" false false]

/-- Two nodes carrying the same score, for exercising the reporter ties. -/
def cePairs : List (ℚ × Token) :=
  [((1 : ℚ), tok 0 "alpha" "NOUN" false false), ((1 : ℚ), tok 1 "beta" "NOUN" false false)]

theorem endIdx_eq (L i W : Nat) : endIdx L i W = (i : Int) + W + 1 := by
  unfold endIdx
  have h : (L : Int) - ((L : Int) - ((i : Int) + (W : Int) + 1)) = (i : Int) + W + 1 := by ring
  rw [h]
  exact max_eq_right (by positivity)

theorem nextwords_eq (doc : List Token) (i W : Nat) :
    nextwords doc i W = (doc.drop (i + 1)).take W := by
  unfold nextwords pySlice
  rw [endIdx_eq]
  have h : (((i : Int) + W + 1)).toNat = i + W + 1 := by omega
  rw [h, List.drop_take]
  congr 1
  omega

theorem foldl_accAdd {σ γ : Type} (contrib : Nat × σ → γ → Int) :
    ∀ (l : List (Nat × σ)) (m : γ → Int) (c : γ),
      (l.foldl (accAdd contrib) m) c = m c + ((l.map (fun p => contrib p c)).sum) := by
  intro l
  induction l with
  | nil => intro m c; simp
  | cons p l ih =>
    intro m c
    simp only [List.foldl_cons, List.map_cons, List.sum_cons, ih, accAdd]
    ring

theorem map_enumFrom_sum {σ : Type} (d : σ) (f : Nat × σ → Int) :
    ∀ (l : List σ) (k : Nat),
      ((l.enumFrom k).map f).sum
        = ((List.range l.length).map (fun j => f (k + j, l.getD j d))).sum := by
  intro l
  induction l with
  | nil => intro k; simp
  | cons x l ih =>
    intro k
    simp only [List.enumFrom, List.map_cons, List.sum_cons, List.length_cons,
      List.range_succ_eq_map, List.map_map]
    rw [ih (k + 1)]
    congr 1
    congr 1
    apply List.map_congr_left
    intro j _
    simp only [Function.comp_apply, List.getD_cons_succ]
    congr 2
    omega

theorem map_enum_sum {σ : Type} (d : σ) (f : Nat × σ → Int) (l : List σ) :
    ((l.enum).map f).sum = ((List.range l.length).map (fun j => f (j, l.getD j d))).sum := by
  rw [List.enum, map_enumFrom_sum d f l 0]
  simp

theorem range_map_sum_single (f : Nat → Int) :
    ∀ (n i0 : Nat), i0 < n → (∀ j, j < n → j ≠ i0 → f j = 0) →
      ((List.range n).map f).sum = f i0 := by
  intro n
  induction n with
  | zero => intro i0 h _; omega
  | succ n ih =>
    intro i0 hi0 hz
    rw [List.range_succ, List.map_append, List.sum_append]
    by_cases h : i0 = n
    · subst h
      have hzero : ((List.range i0).map f).sum = 0 := by
        apply List.sum_eq_zero
        intro x hx
        obtain ⟨j, hj, rfl⟩ := List.mem_map.mp hx
        rw [List.mem_range] at hj
        exact hz j (by omega) (by omega)
      simp [hzero]
    · have hn : f n = 0 := hz n (by omega) (Ne.symm h)
      rw [ih i0 (by omega) (fun j hj hne => hz j (by omega) hne)]
      simp [hn]

theorem window_count (doc : List Token) (hnd : doc.Nodup) (i W ib : Nat)
    (hb : ib < doc.length) :
    ((doc.drop (i + 1)).take W).count (doc.get ⟨ib, hb⟩)
      = if i < ib ∧ ib ≤ i + W then 1 else 0 := by
  have hsub : List.Sublist ((doc.drop (i + 1)).take W) doc :=
    (List.take_sublist _ _).trans (List.drop_sublist _ _)
  have hnd2 : ((doc.drop (i + 1)).take W).Nodup := hsub.nodup hnd
  by_cases hmem : doc.get ⟨ib, hb⟩ ∈ (doc.drop (i + 1)).take W
  · rw [List.count_eq_one_of_mem hnd2 hmem]
    obtain ⟨j, hj, hget⟩ := List.mem_iff_getElem.mp hmem
    have hjlen := hj
    simp only [List.length_take, List.length_drop] at hjlen
    have hij : i + 1 + j < doc.length := by omega
    have hgj : ((doc.drop (i + 1)).take W)[j] = doc[i + 1 + j] := by
      rw [List.getElem_take, List.getElem_drop]
    rw [hgj, List.get_eq_getElem] at hget
    have heq : i + 1 + j = ib := hnd.getElem_inj_iff.mp hget
    rw [if_pos (by omega)]
  · rw [List.count_eq_zero.mpr hmem]
    rw [if_neg]
    rintro ⟨h1, h2⟩
    apply hmem
    apply List.mem_iff_getElem.mpr
    refine ⟨ib - (i + 1), ?_, ?_⟩
    · simp only [List.length_take, List.length_drop]
      omega
    · rw [List.getElem_take, List.getElem_drop]
      simp only [List.get_eq_getElem]
      congr 1
      omega

theorem adjacency_eq_sum (doc : List Token) (W : Nat) (c : Token × Token) :
    adjacency doc W c
      = ((List.range doc.length).map
          (fun j => uniContrib doc W (j, doc.getD j dT) c)).sum := by
  unfold adjacency
  rw [foldl_accAdd, map_enum_sum dT]
  simp

theorem adjacency_window_char (doc : List Token) (hnd : doc.Nodup)
    (ia ib : Nat) (ha : ia < doc.length) (hb : ib < doc.length)
    (hra : doc.get ⟨ia, ha⟩ ∈ gatsby_filt doc)
    (hrb : doc.get ⟨ib, hb⟩ ∈ gatsby_filt doc) :
    adjacency doc 4 (doc.get ⟨ia, ha⟩, doc.get ⟨ib, hb⟩)
      = if ia < ib ∧ ib ≤ ia + 4 then 1 else 0 := by
  rw [adjacency_eq_sum]
  rw [range_map_sum_single _ doc.length ia ha]
  · unfold uniContrib
    rw [if_pos]
    · have hcnt : (neighborsOf doc ia 4).count (doc.get ⟨ib, hb⟩)
          = if ia < ib ∧ ib ≤ ia + 4 then 1 else 0 := by
        unfold neighborsOf
        rw [List.count_filter (by simpa using hrb), nextwords_eq,
          window_count doc hnd ia 4 ib hb]
      rw [hcnt]
      split <;> simp
    · constructor
      · simpa [List.getElem?_eq_getElem ha, List.get_eq_getElem] using hra
      · simp [List.getElem?_eq_getElem ha, List.get_eq_getElem]
  · intro j hj hne
    unfold uniContrib
    rw [if_neg]
    rintro ⟨-, heq⟩
    simp only [List.getD_eq_getElem?_getD, List.getElem?_eq_getElem hj, Option.getD_some,
      List.get_eq_getElem] at heq
    exact hne (hnd.getElem_inj_iff.mp heq.symm)

/-- C10: the end-index expression max(0, L - (L - (i+W+1))) used by all three
co-occurrence builders equals i+W+1 independently of L, so this expression by
itself never clips to the sequence end; the scanned neighbor slice is bounded
by the sequence end only through slice truncation, holding exactly the spans
at positions i+1 .. min(i+W, L-1). -/
theorem C10_end_index_no_clip :
    (∀ L i W : Nat, endIdx L i W = (i : Int) + W + 1) ∧
    (∀ (xs : List Token) (i W j : Nat),
      (nextwords xs i W)[j]? = if j < W then xs[i + 1 + j]? else none) ∧
    (∀ (xs : List Token) (i W : Nat),
      (nextwords xs i W).length = min W (xs.length - (i + 1))) := by
  refine ⟨endIdx_eq, ?_, ?_⟩
  · intro xs i W j
    rw [nextwords_eq]
    simp [List.getElem?_take, List.getElem?_drop, Nat.add_assoc]
  · intro xs i W
    rw [nextwords_eq]
    simp

/-- C1: whenever the token at position i of the full sequence is retained,
the unigram builder examines exactly the positions i+1 .. i+4 clipped to the
sequence end and adds exactly 1 to weight(token_i, neighbor) for each
examined retained neighbor; in particular, on the worked example text with
retained nouns cat and dog the graph has 2 nodes and weight(cat, dog) is 1,
dog lying within 4 tokens after cat. -/
theorem C1_unigram_cooccurrence :
    (∀ (doc : List Token), doc.Nodup →
      ∀ (ia ib : Nat) (ha : ia < doc.length) (hb : ib < doc.length),
        doc.get ⟨ia, ha⟩ ∈ gatsby_filt doc → doc.get ⟨ib, hb⟩ ∈ gatsby_filt doc →
        adjacency doc 4 (doc.get ⟨ia, ha⟩, doc.get ⟨ib, hb⟩)
          = if ia < ib ∧ ib ≤ ia + 4 then 1 else 0) ∧
    ((words catDoc).length = 2 ∧
      (adjacency catDoc 4 (tok 1 "cat" "NOUN" false false, tok 5 "dog" "NOUN" false false)
        = if 1 < 5 ∧ 5 ≤ 1 + 4 then 1 else 0) ∧
      adjacency catDoc 4 (tok 1 "cat" "NOUN" false false, tok 5 "dog" "NOUN" false false)
        = 1) := by
  refine ⟨fun doc hnd ia ib ha hb hra hrb =>
    adjacency_window_char doc hnd ia ib ha hb hra hrb, by decide, by decide, by decide⟩

/-- Witness for C1 at the worked example: cat at position 1, dog at position 5. -/
theorem C1_unigram_cooccurrence_witness :
    adjacency catDoc 4 (catDoc.get ⟨1, by decide⟩, catDoc.get ⟨5, by decide⟩)
      = if 1 < 5 ∧ 5 ≤ 1 + 4 then 1 else 0 :=
  C1_unigram_cooccurrence.1 catDoc (by decide) 1 5 (by decide) (by decide) (by decide)
    (by decide)

theorem pySlice_length (xs : List Token) (a b : Nat) :
    (pySlice xs a b).length = min b xs.length - a := by
  simp [pySlice]

theorem digramWindowed_getElem? (doc : List Token) (j : Nat) :
    (digramWindowed doc)[j]? =
      if j < doc.length - 2 then some (pySlice doc j (j + 2)) else none := by
  have h1 : digramWindowed doc = (new_gats doc).take (doc.length - 2) := by
    unfold digramWindowed pyDropLast2
    congr 1
    simp [new_gats]
  rw [h1, List.getElem?_take]
  by_cases hj : j < doc.length - 2
  · rw [if_pos hj, if_pos hj]
    unfold new_gats
    rw [List.getElem?_map, List.getElem?_range (by omega)]
    simp
  · rw [if_neg hj, if_neg hj]

theorem trigramWindowed_getElem? (doc : List Token) (j : Nat) :
    (trigramWindowed doc)[j]? =
      if j < doc.length - 2 then some (pySlice doc j (j + 3)) else none := by
  have h1 : trigramWindowed doc = (trig_gats_raw doc).take (doc.length - 2) := by
    unfold trigramWindowed pyDropLast2
    congr 1
    simp [trig_gats_raw]
  rw [h1, List.getElem?_take]
  by_cases hj : j < doc.length - 2
  · rw [if_pos hj, if_pos hj]
    unfold trig_gats_raw
    rw [List.getElem?_map, List.getElem?_range (by omega)]
    simp
  · rw [if_neg hj, if_neg hj]

theorem digramWindowed_length (doc : List Token) :
    (digramWindowed doc).length = doc.length - 2 := by
  unfold digramWindowed pyDropLast2
  simp [new_gats]

theorem trigramWindowed_length (doc : List Token) :
    (trigramWindowed doc).length = doc.length - 2 := by
  unfold trigramWindowed pyDropLast2
  simp [trig_gats_raw]

theorem digramWindowed_span_length (doc : List Token) :
    ∀ s ∈ digramWindowed doc, s.length = 2 := by
  intro s hs
  obtain ⟨j, hj⟩ := List.mem_iff_getElem?.mp hs
  rw [digramWindowed_getElem? doc j] at hj
  by_cases h : j < doc.length - 2
  · rw [if_pos h] at hj
    have hs2 : s = pySlice doc j (j + 2) := (Option.some_inj.mp hj).symm
    rw [hs2, pySlice_length]
    omega
  · rw [if_neg h] at hj
    exact absurd hj (by simp)

theorem trigramWindowed_span_length (doc : List Token) :
    ∀ s ∈ trigramWindowed doc, s.length = 3 := by
  intro s hs
  obtain ⟨j, hj⟩ := List.mem_iff_getElem?.mp hs
  rw [trigramWindowed_getElem? doc j] at hj
  by_cases h : j < doc.length - 2
  · rw [if_pos h] at hj
    have hs2 : s = pySlice doc j (j + 3) := (Option.some_inj.mp hj).symm
    rw [hs2, pySlice_length]
    omega
  · rw [if_neg h] at hj
    exact absurd hj (by simp)

theorem shorter_gats_span_length (doc : List Token) :
    ∀ s ∈ shorter_gats doc, s.length = 2 := by
  intro s hs
  have h2 : s ∈ second_gats doc := (List.mem_filter.mp hs).1
  have h1 : s ∈ digramWindowed doc := (List.mem_filter.mp h2).1
  exact digramWindowed_span_length doc s h1

theorem trig_gats_filt_span_length (doc : List Token) :
    ∀ s ∈ trig_gats_filt doc, s.length = 3 := by
  intro s hs
  have h2 : s ∈ trig_gats doc := (List.mem_filter.mp hs).1
  have h1 : s ∈ trigramWindowed doc := (List.mem_filter.mp h2).1
  exact trigramWindowed_span_length doc s h1

/-- C2 counterexample: on a four-token text the digram windowing step yields
2 spans, not the claimed L - N + 1 = 3. -/
theorem C2_windowing_counterexample :
    (digramWindowed plainDoc4).length ≠ plainDoc4.length - 2 + 1 := by decide

/-- C2 amended: for N = 3 the windowing step produces L-2 = L-N+1 full
contiguous spans in order, dropping exactly the N-1 = 2 trailing partial
windows; for N = 2 the code drops the final two windows rather than N-1 = 1,
producing L-2 spans, so one full window is dropped besides the partial one;
for N = 1 the scanned sequence is the token sequence itself. -/
theorem C2_windowing_amended : ∀ (doc : List Token),
    (digramWindowed doc).length = doc.length - 2 ∧
    (∀ j : Nat, (digramWindowed doc)[j]? =
      if j < doc.length - 2 then some (pySlice doc j (j + 2)) else none) ∧
    (digramWindowed doc).all (fun s => s.length == 2) = true ∧
    (trigramWindowed doc).length = doc.length - 2 ∧
    (∀ j : Nat, (trigramWindowed doc)[j]? =
      if j < doc.length - 2 then some (pySlice doc j (j + 3)) else none) ∧
    (trigramWindowed doc).all (fun s => s.length == 3) = true := by
  intro doc
  refine ⟨digramWindowed_length doc, digramWindowed_getElem? doc, ?_,
    trigramWindowed_length doc, trigramWindowed_getElem? doc, ?_⟩
  · apply List.all_eq_true.mpr
    intro s hs
    simpa using digramWindowed_span_length doc s hs
  · apply List.all_eq_true.mpr
    intro s hs
    simpa using trigramWindowed_span_length doc s hs

/-- C3 counterexample: the digram builder's outer scan sequence is the
filtered shorter_gats, which on a text containing punctuation differs from
the full unfiltered digram span sequence; the trigram builder scans that
same digram sequence, which is never the trigram span sequence. -/
theorem C3_outer_scan_counterexample :
    shorter_gats punctDoc ≠ specUnfilteredDigramSeq punctDoc ∧
    shorter_gats plainDoc4 ≠ specUnfilteredTrigramSeq plainDoc4 := by decide

/-- C3 amended: the unigram builder scans the full token sequence with
window 4 and the digram builder scans the punctuation- and stop-word-
filtered digram sequence shorter_gats with window 14; the trigram builder
scans shorter_gats as well - a digram sequence - with window 4, so its
membership test against the retained trigrams never succeeds and the
trigram adjacency it emits is identically zero. -/
theorem C3_outer_scan_amended : ∀ (doc : List Token) (c : String × String),
    adjacency_trigr doc c = 0 := by
  intro doc c
  unfold adjacency_trigr
  rw [foldl_accAdd]
  have hz : ((((shorter_gats doc).enum).map (fun p => trigContrib doc p c))).sum = 0 := by
    apply List.sum_eq_zero
    intro x hx
    obtain ⟨p, hp, rfl⟩ := List.mem_map.mp hx
    have hmem : p.2 ∈ shorter_gats doc := List.snd_mem_of_mem_enumFrom hp
    have hlen : p.2.length = 2 := shorter_gats_span_length doc p.2 hmem
    unfold trigContrib
    rw [if_neg]
    rintro ⟨hin, -⟩
    have := trig_gats_filt_span_length doc p.2 hin
    omega
  rw [hz]
  simp

theorem adjacency_nonneg (doc : List Token) (W : Nat) (c : Token × Token) :
    0 ≤ adjacency doc W c := by
  unfold adjacency
  rw [foldl_accAdd]
  have h : 0 ≤ (((doc.enum).map (fun p => uniContrib doc W p c))).sum := by
    apply List.sum_nonneg
    intro x hx
    obtain ⟨p, _, rfl⟩ := List.mem_map.mp hx
    unfold uniContrib
    split
    · exact Int.natCast_nonneg _
    · exact le_refl 0
  simpa using h

theorem adjacency_digr_nonneg (doc : List Token) (c : String × String) :
    0 ≤ adjacency_digr doc c := by
  unfold adjacency_digr
  rw [foldl_accAdd]
  have h : 0 ≤ ((((shorter_gats doc).enum).map (fun p => digrContrib doc p c))).sum := by
    apply List.sum_nonneg
    intro x hx
    obtain ⟨p, _, rfl⟩ := List.mem_map.mp hx
    unfold digrContrib
    split
    · exact Int.natCast_nonneg _
    · exact le_refl 0
  simpa using h

/-- C4: for every text and window the emitted adjacency structures are
square, with one row and one column per element of the retained span set,
and every weight in them is a non-negative integer. -/
theorem C4_square_nonneg : ∀ (doc : List Token) (W : Nat), 1 ≤ W →
    ((unigramFrame doc W).rowLabels = (unigramFrame doc W).colLabels ∧
      (unigramFrame doc W).rowLabels.length = ((gatsby_filt doc).dedup).length ∧
      (unigramFrame doc W).rowLabels.Nodup ∧
      ∀ c, 0 ≤ (unigramFrame doc W).entry c) ∧
    ((digramFrame doc).rowLabels = (digramFrame doc).colLabels ∧
      (digramFrame doc).rowLabels.length = ((new_gats_filt doc).dedup).length ∧
      ∀ c, 0 ≤ (digramFrame doc).entry c) := by
  intro doc W _
  refine ⟨⟨rfl, rfl, List.nodup_dedup _, fun c => adjacency_nonneg doc W c⟩,
    rfl, ?_, fun c => adjacency_digr_nonneg doc c⟩
  simp [digramFrame, new_gats_words]

/-- Witness for C4 at the worked example text and window 4. -/
theorem C4_square_nonneg_witness :
    0 ≤ (unigramFrame catDoc 4).entry
      (tok 1 "cat" "NOUN" false false, tok 5 "dog" "NOUN" false false) :=
  (C4_square_nonneg catDoc 4 (by decide)).1.2.2.2 _

theorem pyTupLt_iff (a b : ℚ × Token) :
    pyTupLt a b = true ↔ (a.1 < b.1 ∨ (a.1 = b.1 ∧ a.2.idx < b.2.idx)) := by
  unfold pyTupLt
  simp [Bool.or_eq_true, Bool.and_eq_true, decide_eq_true_eq]

theorem pyTupLt_asymm (a b : ℚ × Token) (h : pyTupLt a b = true) : pyTupLt b a = false := by
  rw [pyTupLt_iff] at h
  rw [Bool.eq_false_iff, Ne, pyTupLt_iff]
  push_neg
  rcases h with h | ⟨he, hi⟩
  · exact ⟨le_of_lt h, fun heq => absurd (heq ▸ h) (lt_irrefl _)⟩
  · exact ⟨le_of_eq he, fun _ => Nat.le_of_lt hi⟩

theorem pyTupLt_le_trans (a b c : ℚ × Token)
    (hab : pyTupLt a b = false) (hbc : pyTupLt b c = false) :
    pyTupLt a c = false := by
  rw [Bool.eq_false_iff, Ne, pyTupLt_iff] at hab hbc ⊢
  push_neg at hab hbc ⊢
  refine ⟨hbc.1.trans hab.1, ?_⟩
  intro hac
  have h1 : a.1 ≤ b.1 := (le_of_eq hac).trans hbc.1
  have hab1 : a.1 = b.1 := le_antisymm h1 hab.1
  have hbc1 : b.1 = c.1 := le_antisymm (hab.1.trans (le_of_eq hac)) hbc.1
  have h2 := hab.2 hab1
  have h3 := hbc.2 hbc1
  omega

/-- C5 counterexample: on two tied scores the reporter emits the nodes in
reverse natural order, not natural order. -/
theorem C5_reporter_counterexample :
    rankedTop cePairs ≠ specRanked5 cePairs ∧
    rankedTop cePairs
      = [((1 : ℚ), tok 1 "beta" "NOUN" false false),
         ((1 : ℚ), tok 0 "alpha" "NOUN" false false)] ∧
    specRanked5 cePairs
      = [((1 : ℚ), tok 0 "alpha" "NOUN" false false),
         ((1 : ℚ), tok 1 "beta" "NOUN" false false)] := by
  have h1 : rankedTop cePairs
      = [((1 : ℚ), tok 1 "beta" "NOUN" false false),
         ((1 : ℚ), tok 0 "alpha" "NOUN" false false)] := by
    simp [rankedTop, ranked, cePairs, pyTupLt, tok, List.mergeSort, List.merge,
      List.splitInTwo]
  have h2 : specRanked5 cePairs
      = [((1 : ℚ), tok 0 "alpha" "NOUN" false false),
         ((1 : ℚ), tok 1 "beta" "NOUN" false false)] := by
    simp [specRanked5, cePairs, tok, List.mergeSort, List.merge, List.splitInTwo]
  refine ⟨?_, h1, h2⟩
  rw [h1, h2]
  decide

/-- C5 amended: the reporter returns the first five pairs of a stable sort
by score descending with ties on equal scores broken by the node in reverse
natural order, descending position; the output is still deterministic. -/
theorem C5_reporter_amended : ∀ (pairs : List (ℚ × Token)),
    (rankedTop pairs).length = min 5 pairs.length ∧
    List.Pairwise (fun a b => pyTupLt a b = false) (rankedTop pairs) ∧
    ∃ rest : List (ℚ × Token), pairs.Perm (rankedTop pairs ++ rest) ∧
      (rankedTop pairs).all (fun a => rest.all (fun b => !(pyTupLt a b))) = true := by
  intro pairs
  have htrans : ∀ (a b c : ℚ × Token),
      (!(pyTupLt a b)) = true → (!(pyTupLt b c)) = true → (!(pyTupLt a c)) = true := by
    intro a b c h1 h2
    rw [Bool.not_eq_true'] at h1 h2 ⊢
    exact pyTupLt_le_trans a b c h1 h2
  have htotal : ∀ (a b : ℚ × Token), ((!(pyTupLt a b)) || (!(pyTupLt b a))) = true := by
    intro a b
    cases hh : pyTupLt a b with
    | false => simp [hh]
    | true => simp [pyTupLt_asymm a b hh]
  have hsorted : List.Pairwise (fun a b => (!(pyTupLt a b)) = true) (ranked pairs) := by
    unfold ranked
    exact List.sorted_mergeSort htrans htotal pairs
  have happ : rankedTop pairs ++ (ranked pairs).drop 5 = ranked pairs := by
    simp [rankedTop, List.take_append_drop]
  refine ⟨?_, ?_, (ranked pairs).drop 5, ?_, ?_⟩
  · simp [rankedTop, ranked]
  · have hp := List.Pairwise.sublist (List.take_sublist 5 (ranked pairs)) hsorted
    have hp2 : List.Pairwise (fun a b => (!(pyTupLt a b)) = true) (rankedTop pairs) := hp
    exact hp2.imp (fun h => by rwa [Bool.not_eq_true'] at h)
  · have hperm : (ranked pairs).Perm pairs := by
      unfold ranked
      exact List.mergeSort_perm pairs _
    rw [happ]
    exact hperm.symm
  · have hsplit : List.Pairwise (fun a b => (!(pyTupLt a b)) = true)
        (rankedTop pairs ++ (ranked pairs).drop 5) := by
      rw [happ]
      exact hsorted
    have hcross := (List.pairwise_append.mp hsplit).2.2
    apply List.all_eq_true.mpr
    intro a ha
    apply List.all_eq_true.mpr
    intro b hb
    exact hcross a ha b hb

/-- C6 counterexample: two retained tokens with identical text at different
positions remain two distinct nodes of the graph, so spans are not
identified by their text. -/
theorem C6_span_identity_counterexample :
    tok 0 "cat" "NOUN" false false ∈ words catCatDoc ∧
    tok 2 "cat" "NOUN" false false ∈ words catCatDoc ∧
    (tok 0 "cat" "NOUN" false false).text = (tok 2 "cat" "NOUN" false false).text ∧
    tok 0 "cat" "NOUN" false false ≠ tok 2 "cat" "NOUN" false false ∧
    (words catCatDoc).length = 2 := by
  decide

/-- C6 amended: span identity is by the whole token value, position
included: the set construction deduplicates only identical tokens, and
distinct retained occurrences stay distinct graph nodes even when their
texts coincide. -/
theorem C6_span_identity_amended : ∀ (doc : List Token) (a b : Token),
    a ∈ gatsby_filt doc → b ∈ gatsby_filt doc → a ≠ b → a.text = b.text →
    a ∈ words doc ∧ b ∈ words doc := by
  intro doc a b ha hb _ _
  exact ⟨List.mem_dedup.mpr ha, List.mem_dedup.mpr hb⟩

/-- Witness for C6 amended: the two same-text retained cat tokens. -/
theorem C6_span_identity_amended_witness :
    tok 0 "cat" "NOUN" false false ∈ words catCatDoc ∧
    tok 2 "cat" "NOUN" false false ∈ words catCatDoc :=
  C6_span_identity_amended catCatDoc _ _ (by decide) (by decide) (by decide) (by decide)

/-- C7: with the ranking engine pinned, the keyword pipeline is a pure
function of the input text, so two runs on identical input produce
identical top-K output. -/
theorem C7_pipeline_deterministic :
    ∀ (engine : (Token × Token → Int) → Nat → Nat → ℚ) (d1 d2 : List Token),
      d1 = d2 → topKeywords engine d1 = topKeywords engine d2 := by
  intro engine d1 d2 h
  rw [h]

/-- Witness for C7 at the worked example text. -/
theorem C7_pipeline_deterministic_witness :
    topKeywords zeroEngine catDoc = topKeywords zeroEngine catDoc :=
  C7_pipeline_deterministic zeroEngine catDoc catDoc rfl

/-- C8 counterexample: on the empty text the retained set is empty and the
pipeline completes normally with an empty report, whereas the claimed
behavior is a no-data error condition. -/
theorem C8_empty_input_counterexample :
    words ([] : List Token) = [] ∧
    topKeywords zeroEngine [] = [] ∧
    Except.ok (topKeywords zeroEngine []) ≠ claimNoDataPipeline zeroEngine [] := by
  refine ⟨rfl, ?_, ?_⟩
  · simp [topKeywords, rankedTop, ranked, words, gatsby_filt]
  · simp [claimNoDataPipeline, words, gatsby_filt]

/-- C8 amended: on empty input the retained-span set is empty and the
pipeline returns the empty top-K report without raising any error
condition; in particular no division error occurs in the modelled logic. -/
theorem C8_empty_input_amended :
    ∀ (engine : (Token × Token → Int) → Nat → Nat → ℚ),
      words ([] : List Token) = [] ∧ topKeywords engine [] = [] := by
  intro engine
  exact ⟨rfl, by simp [topKeywords, rankedTop, ranked, words, gatsby_filt]⟩

end TextRank
